import Mathlib

set_option autoImplicit false

/-! Shallow embedding of the metagoblin range-classification engine
(src/lib.rs of m4b/metagoblin) together with the narrow slice of the
external ELF parser interface (the goblin crate) that the engine consumes.
Machine integers (u32, u64, usize) are represented as natural numbers; all
arithmetic the code performs on them (saturating subtraction, offset + size)
never wraps, so truncated Nat arithmetic coincides with the machine
semantics. -/

/-- A range of memory (struct MRange in src/lib.rs): min is the start and
max is the end, both u64 values. -/
structure MRange where
  min : Nat
  max : Nat
  deriving DecidableEq, Repr

/-- MRange::new (src/lib.rs). -/
def MRange.new (start finish : Nat) : MRange :=
  { min := start, max := finish }

/-- MRange::len (src/lib.rs): self.max.saturating_sub(self.min).  On u64
values, saturating subtraction coincides with truncated Nat subtraction. -/
def MRange.len (r : MRange) : Nat :=
  r.max - r.min

/-- From<(u64, u64)> for MRange (src/lib.rs). -/
def MRange.ofPair (range : Nat × Nat) : MRange :=
  MRange.new range.1 range.2

/-- The Tag enum (src/lib.rs): symbolically tags an address range in a binary. -/
inductive Tag where
  | Meta
  | Code
  | Data
  | Relocation
  | StringTable
  | SymbolTable
  | Zero
  | ASCII
  | Unknown
  deriving DecidableEq, Repr

/-- The Permissions struct (src/lib.rs): raw_perms is the array
[read, write, execute] of three booleans. -/
structure Permissions where
  raw_perms : Bool × Bool × Bool
  deriving DecidableEq, Repr

/-- Permissions::new (src/lib.rs). -/
def Permissions.new (read write execute : Bool) : Permissions :=
  { raw_perms := (read, write, execute) }

/-- Permissions::read (src/lib.rs): raw_perms[0]. -/
def Permissions.read (p : Permissions) : Bool :=
  p.raw_perms.1

/-- Permissions::write (src/lib.rs): raw_perms[1]. -/
def Permissions.write (p : Permissions) : Bool :=
  p.raw_perms.2.1

/-- Permissions::execute (src/lib.rs): raw_perms[2]. -/
def Permissions.execute (p : Permissions) : Bool :=
  p.raw_perms.2.2

/-- The Display impl for Permissions (src/lib.rs): three conditional writes
to the formatter, modelled as successive appends to the output string. -/
def Permissions.display (p : Permissions) : String :=
  let s := ""
  let s := if p.read then s ++ "R" else s
  let s := if p.write then s ++ "W" else s
  let s := if p.execute then s ++ "+X" else s
  s

/-- The Segment struct (src/lib.rs): permissions plus an optional alignment. -/
structure Segment where
  permissions : Permissions
  alignment : Option Nat
  deriving DecidableEq, Repr

/-- Segment::new (src/lib.rs): alignment is always None. -/
def Segment.new (permissions : Permissions) : Segment :=
  { permissions := permissions, alignment := none }

/-- The MetaData struct (src/lib.rs). -/
structure MetaData where
  tag : Tag
  name : Option String
  memory : Option Segment
  deriving DecidableEq, Repr

/-! External collaborator: the goblin ELF parser (spec section 6).  The engine
consumes program headers (type code, flag bits for read/write/execute,
declared file offset+size, declared virtual address+size), section headers
(type code, flag bits for allocated/writable/executable, name-table offset,
size, file offset, virtual address) and a tolerant string-table accessor. -/

def PT_LOAD : Nat := 1
def PT_DYNAMIC : Nat := 2
def PT_INTERP : Nat := 3
def PT_NOTE : Nat := 4
def PT_PHDR : Nat := 6

def PF_X : Nat := 1
def PF_W : Nat := 2
def PF_R : Nat := 4

/-- An ELF program header (goblin::elf::ProgramHeader): p_type and p_flags
are u32, the rest u64. -/
structure ProgramHeader where
  p_type : Nat
  p_flags : Nat
  p_offset : Nat
  p_vaddr : Nat
  p_paddr : Nat
  p_filesz : Nat
  p_memsz : Nat
  p_align : Nat
  deriving DecidableEq, Repr

/-- goblin ProgramHeader::is_read: the PF_R bit of p_flags. -/
def ProgramHeader.is_read (p : ProgramHeader) : Bool :=
  p.p_flags.land PF_R != 0

/-- goblin ProgramHeader::is_write: the PF_W bit of p_flags. -/
def ProgramHeader.is_write (p : ProgramHeader) : Bool :=
  p.p_flags.land PF_W != 0

/-- goblin ProgramHeader::is_executable: the PF_X bit of p_flags. -/
def ProgramHeader.is_executable (p : ProgramHeader) : Bool :=
  p.p_flags.land PF_X != 0

/-- Modelled from the spec: a segment's file byte range is computed from its
declared file offset and file size (goblin ProgramHeader::file_range). -/
def ProgramHeader.file_range (p : ProgramHeader) : Nat × Nat :=
  (p.p_offset, p.p_offset + p.p_filesz)

/-- Modelled from the spec: a segment's virtual byte range is computed from
its declared virtual address and memory size (goblin ProgramHeader::vm_range). -/
def ProgramHeader.vm_range (p : ProgramHeader) : Nat × Nat :=
  (p.p_vaddr, p.p_vaddr + p.p_memsz)

/-- Modelled from the spec: canonical string labels for program-header type
codes (goblin program_header::pt_to_str), a static lookup. -/
def pt_to_str (pt : Nat) : String :=
  if pt = 0 then "PT_NULL"
  else if pt = PT_LOAD then "PT_LOAD"
  else if pt = PT_DYNAMIC then "PT_DYNAMIC"
  else if pt = PT_INTERP then "PT_INTERP"
  else if pt = PT_NOTE then "PT_NOTE"
  else if pt = 5 then "PT_SHLIB"
  else if pt = PT_PHDR then "PT_PHDR"
  else if pt = 7 then "PT_TLS"
  else "UNKNOWN_PT"

def SHT_PROGBITS : Nat := 1
def SHT_SYMTAB : Nat := 2
def SHT_STRTAB : Nat := 3
def SHT_RELA : Nat := 4
def SHT_DYNAMIC : Nat := 6
def SHT_NOTE : Nat := 7
def SHT_NOBITS : Nat := 8
def SHT_REL : Nat := 9
def SHT_DYNSYM : Nat := 11
def SHT_INIT_ARRAY : Nat := 14
def SHT_FINI_ARRAY : Nat := 15

def SHF_WRITE : Nat := 1
def SHF_ALLOC : Nat := 2
def SHF_EXECINSTR : Nat := 4

/-- An ELF section header (goblin::elf::SectionHeader): sh_name and sh_type
are u32, sh_flags, sh_addr, sh_offset, sh_size are u64. -/
structure SectionHeader where
  sh_name : Nat
  sh_type : Nat
  sh_flags : Nat
  sh_addr : Nat
  sh_offset : Nat
  sh_size : Nat
  deriving DecidableEq, Repr

/-- goblin SectionHeader::is_alloc: the SHF_ALLOC bit of sh_flags. -/
def SectionHeader.is_alloc (s : SectionHeader) : Bool :=
  s.sh_flags.land SHF_ALLOC != 0

/-- goblin SectionHeader::is_writable: the SHF_WRITE bit of sh_flags. -/
def SectionHeader.is_writable (s : SectionHeader) : Bool :=
  s.sh_flags.land SHF_WRITE != 0

/-- goblin SectionHeader::is_executable: the SHF_EXECINSTR bit of sh_flags. -/
def SectionHeader.is_executable (s : SectionHeader) : Bool :=
  s.sh_flags.land SHF_EXECINSTR != 0

/-- Modelled from the spec: a section's file range is present only if the
section occupies file storage; a no-bits section has no file bytes, so its
file range is absent (goblin SectionHeader::file_range). -/
def SectionHeader.file_range (s : SectionHeader) : Option (Nat × Nat) :=
  if s.sh_type = SHT_NOBITS then none
  else some (s.sh_offset, s.sh_offset + s.sh_size)

/-- Modelled from the spec: a section's virtual byte range is computed from
its declared virtual address and size (goblin SectionHeader::vm_range). -/
def SectionHeader.vm_range (s : SectionHeader) : Nat × Nat :=
  (s.sh_addr, s.sh_addr + s.sh_size)

/-- Modelled from the spec: the section-header string table, an accessor that
resolves a name-table offset to a string and tolerates invalid offsets by
yielding none (goblin Strtab, accessed through get_unsafe in src/lib.rs). -/
abbrev Strtab : Type := Nat → Option String

/-- The slice of goblin::elf::Elf that Analysis::new consumes. -/
structure Elf where
  program_headers : List ProgramHeader
  section_headers : List SectionHeader
  shdr_strtab : Strtab

/-- goblin::Object: the parsed-object kind discriminator.  Only the Elf
variant carries data the engine reads; the other variants matter only as
non-Elf kinds. -/
inductive Object where
  | Elf (elf : Elf)
  | PE
  | Mach
  | Archive
  | Unknown (magic : Nat)

/-- From<&ProgramHeader> for MetaData (src/lib.rs): the program-header
classifier.  The Rust match on integer constants is rendered as the
corresponding chain of equality tests, in source order. -/
def MetaData.ofProgramHeader (phdr : ProgramHeader) : MetaData :=
  let name := some (pt_to_str phdr.p_type)
  if phdr.p_type = PT_PHDR then
    { tag := Tag.Meta, name := name, memory := none }
  else if phdr.p_type = PT_INTERP then
    { tag := Tag.ASCII, name := name, memory := none }
  else if phdr.p_type = PT_NOTE then
    { tag := Tag.ASCII, name := name, memory := none }
  else if phdr.p_type = PT_DYNAMIC then
    { tag := Tag.Meta, name := name, memory := none }
  else if phdr.p_type = PT_LOAD then
    { tag := Tag.Code, name := name,
      memory := some (Segment.new
        (Permissions.new phdr.is_read phdr.is_write phdr.is_executable)) }
  else
    { tag := Tag.Unknown, name := name, memory := none }

/-- From<&SectionHeader> for MetaData (src/lib.rs): the section-header
classifier.  The Rust match on integer constants (with or-patterns) is
rendered as the corresponding chain of equality tests, in source order. -/
def MetaData.ofSectionHeader (shdr : SectionHeader) : MetaData :=
  if shdr.sh_type = SHT_NOTE then
    { tag := Tag.ASCII, name := none, memory := none }
  else if shdr.sh_type = SHT_REL ∨ shdr.sh_type = SHT_RELA then
    { tag := Tag.Relocation, name := none, memory := none }
  else if shdr.sh_type = SHT_DYNAMIC then
    { tag := Tag.Meta, name := none, memory := none }
  else if shdr.sh_type = SHT_SYMTAB ∨ shdr.sh_type = SHT_DYNSYM then
    { tag := Tag.SymbolTable, name := none, memory := none }
  else if shdr.sh_type = SHT_STRTAB then
    { tag := Tag.StringTable, name := none, memory := none }
  else if shdr.sh_type = SHT_NOBITS then
    { tag := Tag.Zero, name := none,
      memory := some (Segment.new
        (Permissions.new shdr.is_alloc shdr.is_writable shdr.is_executable)) }
  else if shdr.sh_type = SHT_PROGBITS ∨ shdr.sh_type = SHT_FINI_ARRAY ∨
      shdr.sh_type = SHT_INIT_ARRAY then
    { tag := Tag.Code, name := none,
      memory := some (Segment.new
        (Permissions.new shdr.is_alloc shdr.is_writable shdr.is_executable)) }
  else
    { tag := Tag.Unknown, name := none, memory := none }

/-- The Analysis struct (src/lib.rs): the two range-indexed collections, as
lists of (range, metadata) pairs in insertion order. -/
structure Analysis where
  franges : List (MRange × MetaData)
  memranges : List (MRange × MetaData)

/-- The body of the program-header loop of Analysis::new (src/lib.rs): push
the file range and the virtual range, each paired with the classifier's
metadata, onto franges and memranges respectively. -/
def phdrStep (acc : List (MRange × MetaData) × List (MRange × MetaData))
    (phdr : ProgramHeader) :
    List (MRange × MetaData) × List (MRange × MetaData) :=
  let range := phdr.file_range
  let vmrange := phdr.vm_range
  let tag : MetaData := MetaData.ofProgramHeader phdr
  (acc.1 ++ [(MRange.ofPair range, tag)], acc.2 ++ [(MRange.ofPair vmrange, tag)])

/-- The body of the section-header loop of Analysis::new (src/lib.rs): skip
the entry when sh_size is 0; otherwise classify it, overwrite its name from
the section-header string table, push its file range onto franges when it
has one, and push its virtual range onto memranges. -/
def shdrStep (strtab : Strtab)
    (acc : List (MRange × MetaData) × List (MRange × MetaData))
    (shdr : SectionHeader) :
    List (MRange × MetaData) × List (MRange × MetaData) :=
  if shdr.sh_size = 0 then acc
  else
    let vmrange := shdr.vm_range
    let tag0 : MetaData := MetaData.ofSectionHeader shdr
    let tag : MetaData := { tag0 with name := strtab shdr.sh_name }
    let acc1 :=
      match shdr.file_range with
      | some range => (acc.1 ++ [(MRange.ofPair range, tag)], acc.2)
      | none => acc
    (acc1.1, acc1.2 ++ [(MRange.ofPair vmrange, tag)])

/-- Analysis::new (src/lib.rs): on an Elf object, run the program-header
loop and then the section-header loop over empty collections; on any other
object kind, return empty collections. -/
def Analysis.new (goblin : Object) : Analysis :=
  match goblin with
  | Object.Elf elf =>
    let acc1 := elf.program_headers.foldl phdrStep ([], [])
    let acc2 := elf.section_headers.foldl (shdrStep elf.shdr_strtab) acc1
    { franges := acc2.1, memranges := acc2.2 }
  | _ => { franges := [], memranges := [] }

/-! Per-entry contribution functions: what one header entry adds to each
collection.  These are the specification-side decomposition of the two
loops; the lemma analysis_new_elf below proves that Analysis.new is exactly
their concatenation. -/

/-- The single record a program header contributes to franges. -/
def phdrFrangeContrib (phdr : ProgramHeader) : List (MRange × MetaData) :=
  [(MRange.ofPair phdr.file_range, MetaData.ofProgramHeader phdr)]

/-- The single record a program header contributes to memranges. -/
def phdrMemContrib (phdr : ProgramHeader) : List (MRange × MetaData) :=
  [(MRange.ofPair phdr.vm_range, MetaData.ofProgramHeader phdr)]

/-- The metadata stored for a section: the classifier's output with the name
overwritten from the section-header string table. -/
def shdrMeta (strtab : Strtab) (shdr : SectionHeader) : MetaData :=
  { MetaData.ofSectionHeader shdr with name := strtab shdr.sh_name }

/-- The records a section header contributes to franges: none when its size
is 0 or it has no file range, one otherwise. -/
def shdrFrangeContrib (strtab : Strtab) (shdr : SectionHeader) :
    List (MRange × MetaData) :=
  if shdr.sh_size = 0 then []
  else
    match shdr.file_range with
    | some range => [(MRange.ofPair range, shdrMeta strtab shdr)]
    | none => []

/-- The records a section header contributes to memranges: none when its
size is 0, one otherwise. -/
def shdrMemContrib (strtab : Strtab) (shdr : SectionHeader) :
    List (MRange × MetaData) :=
  if shdr.sh_size = 0 then []
  else [(MRange.ofPair shdr.vm_range, shdrMeta strtab shdr)]

/-! Concrete example inputs, used to witness the theorems below on closed
instances. -/

/-- Example program header: a PT_LOAD segment with flags PF_R ||| PF_X = 5. -/
def phdrLoadRX : ProgramHeader :=
  { p_type := PT_LOAD, p_flags := 5, p_offset := 0x1000, p_vaddr := 0x400000,
    p_paddr := 0, p_filesz := 0x1000, p_memsz := 0x1000, p_align := 0x1000 }

/-- Example program header: a PT_PHDR entry with flags PF_R. -/
def phdrPhdrEx : ProgramHeader :=
  { p_type := PT_PHDR, p_flags := 4, p_offset := 0x40, p_vaddr := 0x400040,
    p_paddr := 0, p_filesz := 0x1f8, p_memsz := 0x1f8, p_align := 8 }

/-- Example section header: a no-bits (.bss-like) section, flags
SHF_ALLOC ||| SHF_WRITE = 3, nonzero size. -/
def shdrNobitsEx : SectionHeader :=
  { sh_name := 1, sh_type := SHT_NOBITS, sh_flags := 3, sh_addr := 0x404000,
    sh_offset := 0x3000, sh_size := 0x100 }

/-- Example section header: a program-bits (.text-like) section, flags
SHF_ALLOC ||| SHF_EXECINSTR = 6, nonzero size. -/
def shdrProgbitsEx : SectionHeader :=
  { sh_name := 7, sh_type := SHT_PROGBITS, sh_flags := 6, sh_addr := 0x401000,
    sh_offset := 0x1000, sh_size := 0x200 }

/-- Example section header: declared size zero. -/
def shdrZeroEx : SectionHeader :=
  { sh_name := 0, sh_type := SHT_PROGBITS, sh_flags := 0, sh_addr := 0,
    sh_offset := 0, sh_size := 0 }

/-- Example string table: resolves offsets 1 and 7, rejects everything else. -/
def strtabEx : Strtab := fun n =>
  if n = 1 then some ".bss" else if n = 7 then some ".text" else none

/-- Example Elf: one load segment and the three example sections. -/
def elfEx : Elf :=
  { program_headers := [phdrLoadRX],
    section_headers := [shdrProgbitsEx, shdrNobitsEx, shdrZeroEx],
    shdr_strtab := strtabEx }

/-- Example Elf: no program headers and a single zero-size section. -/
def elfZeroSec : Elf :=
  { program_headers := [], section_headers := [shdrZeroEx],
    shdr_strtab := strtabEx }

/-- Example parsed object wrapping elfEx. -/
def objEx : Object := Object.Elf elfEx

/-- Example record: the franges record of the example load segment. -/
def recEx : MRange × MetaData :=
  (MRange.ofPair phdrLoadRX.file_range, MetaData.ofProgramHeader phdrLoadRX)

/-- One program-header loop step appends exactly the per-entry contributions. -/
theorem phdrStep_eq (acc : List (MRange × MetaData) × List (MRange × MetaData))
    (phdr : ProgramHeader) :
    phdrStep acc phdr = (acc.1 ++ phdrFrangeContrib phdr, acc.2 ++ phdrMemContrib phdr) :=
  rfl

/-- One section-header loop step appends exactly the per-entry contributions. -/
theorem shdrStep_eq (strtab : Strtab)
    (acc : List (MRange × MetaData) × List (MRange × MetaData))
    (shdr : SectionHeader) :
    shdrStep strtab acc shdr
      = (acc.1 ++ shdrFrangeContrib strtab shdr, acc.2 ++ shdrMemContrib strtab shdr) := by
  unfold shdrStep shdrFrangeContrib shdrMemContrib shdrMeta
  by_cases h : shdr.sh_size = 0
  · simp [h]
  · cases hf : shdr.file_range <;> simp [h, hf]

/-- A fold whose step appends per-entry lists to both components equals the
initial accumulator followed by the concatenated contributions. -/
theorem foldl_contrib {α : Type}
    (f : List (MRange × MetaData) × List (MRange × MetaData) → α →
      List (MRange × MetaData) × List (MRange × MetaData))
    (g1 g2 : α → List (MRange × MetaData))
    (hf : ∀ acc x, f acc x = (acc.1 ++ g1 x, acc.2 ++ g2 x)) :
    ∀ (l : List α) (acc : List (MRange × MetaData) × List (MRange × MetaData)),
      l.foldl f acc = (acc.1 ++ l.flatMap g1, acc.2 ++ l.flatMap g2) := by
  intro l
  induction l with
  | nil => intro acc; simp
  | cons x xs ih =>
    intro acc
    rw [List.foldl_cons, hf, ih]
    simp [List.append_assoc]

/-- Analysis.new on an Elf object is exactly the concatenation of the
per-entry contributions: program headers first, then sections, in header
order, independently for each of the two collections. -/
theorem analysis_new_elf (elf : Elf) :
    Analysis.new (Object.Elf elf)
      = { franges := elf.program_headers.flatMap phdrFrangeContrib
            ++ elf.section_headers.flatMap (shdrFrangeContrib elf.shdr_strtab),
          memranges := elf.program_headers.flatMap phdrMemContrib
            ++ elf.section_headers.flatMap (shdrMemContrib elf.shdr_strtab) } := by
  have h1 := foldl_contrib phdrStep phdrFrangeContrib phdrMemContrib phdrStep_eq
    elf.program_headers ([], [])
  have h2 := foldl_contrib (shdrStep elf.shdr_strtab)
    (shdrFrangeContrib elf.shdr_strtab) (shdrMemContrib elf.shdr_strtab)
    (shdrStep_eq elf.shdr_strtab) elf.section_headers
    (elf.program_headers.foldl phdrStep ([], []))
  show Analysis.mk
      (elf.section_headers.foldl (shdrStep elf.shdr_strtab)
        (elf.program_headers.foldl phdrStep ([], []))).1
      (elf.section_headers.foldl (shdrStep elf.shdr_strtab)
        (elf.program_headers.foldl phdrStep ([], []))).2 = _
  rw [h2, h1]
  simp

/-- C8: for every pair of unsigned 64-bit values (min, max), MRange.len
returns max - min when max is at least min, and returns 0 when max is below
min: the subtraction saturates and never underflows. -/
theorem mrange_len_saturating (mn mx : Nat) :
    (mn ≤ mx → (MRange.mk mn mx).len = mx - mn) ∧
    (mx < mn → (MRange.mk mn mx).len = 0) := by
  refine ⟨fun _ => rfl, fun h => ?_⟩
  simp [MRange.len, Nat.sub_eq_zero_of_le (Nat.le_of_lt h)]

/-- Witness for C8 at (2, 7) and at (9, 3). -/
theorem mrange_len_saturating_witness :
    (2 ≤ 7 ∧ (MRange.mk 2 7).len = 5) ∧ (3 < 9 ∧ (MRange.mk 9 3).len = 0) :=
  ⟨⟨by decide, (mrange_len_saturating 2 7).1 (by decide)⟩,
   ⟨by decide, (mrange_len_saturating 9 3).2 (by decide)⟩⟩

/-- C9: the display rendering of a Permissions value is the concatenation of
R if read is set, then W if write is set, then +X if execute is set; in
particular all-false renders as the empty string, and all-true renders as
RW+X, so execute does not suppress the R and W output. -/
theorem permissions_display_additive (r w x : Bool) :
    Permissions.display (Permissions.new r w x)
      = (if r then "R" else "") ++ (if w then "W" else "") ++ (if x then "+X" else "") ∧
    Permissions.display (Permissions.new true true true) = "RW+X" ∧
    Permissions.display (Permissions.new false false false) = "" := by
  refine ⟨?_, rfl, rfl⟩
  cases r <;> cases w <;> cases x <;> rfl

/-- C6: for every parsed object that is not of the Elf kind, Analysis.new
returns an Analysis whose franges and memranges are both empty, without
raising an error. -/
theorem non_elf_empty_analysis (obj : Object)
    (h : ∀ elf, obj ≠ Object.Elf elf) :
    (Analysis.new obj).franges = [] ∧ (Analysis.new obj).memranges = [] := by
  cases obj with
  | Elf e => exact absurd rfl (h e)
  | PE => exact ⟨rfl, rfl⟩
  | Mach => exact ⟨rfl, rfl⟩
  | Archive => exact ⟨rfl, rfl⟩
  | Unknown m => exact ⟨rfl, rfl⟩

/-- Witness for C6 at the PE object kind. -/
theorem non_elf_empty_analysis_witness :
    (Analysis.new Object.PE).franges = [] ∧
    (Analysis.new Object.PE).memranges = [] :=
  non_elf_empty_analysis Object.PE (fun _ h => Object.noConfusion h)

/-- C5: every program-header entry of an Elf object contributes exactly one
record to franges (its file byte range) and exactly one record to memranges
(its virtual byte range), with no size filtering, and Analysis.new on an Elf
is exactly the concatenation of these per-entry contributions with the
section contributions. -/
theorem load_segment_records (elf : Elf) (phdr : ProgramHeader) :
    phdrFrangeContrib phdr
      = [(MRange.ofPair phdr.file_range, MetaData.ofProgramHeader phdr)] ∧
    (phdrFrangeContrib phdr).length = 1 ∧
    phdrMemContrib phdr
      = [(MRange.ofPair phdr.vm_range, MetaData.ofProgramHeader phdr)] ∧
    (phdrMemContrib phdr).length = 1 ∧
    (Analysis.new (Object.Elf elf)).franges
      = elf.program_headers.flatMap phdrFrangeContrib
        ++ elf.section_headers.flatMap (shdrFrangeContrib elf.shdr_strtab) ∧
    (Analysis.new (Object.Elf elf)).memranges
      = elf.program_headers.flatMap phdrMemContrib
        ++ elf.section_headers.flatMap (shdrMemContrib elf.shdr_strtab) :=
  ⟨rfl, rfl, rfl, rfl, by rw [analysis_new_elf], by rw [analysis_new_elf]⟩

/-- C3: a section entry whose declared size is zero contributes no record to
either collection, and Analysis.new on an Elf is exactly the concatenation
of the per-entry contributions. -/
theorem zero_size_section_no_records (elf : Elf) (shdr : SectionHeader)
    (h : shdr.sh_size = 0) :
    shdrFrangeContrib elf.shdr_strtab shdr = [] ∧
    shdrMemContrib elf.shdr_strtab shdr = [] ∧
    (Analysis.new (Object.Elf elf)).franges
      = elf.program_headers.flatMap phdrFrangeContrib
        ++ elf.section_headers.flatMap (shdrFrangeContrib elf.shdr_strtab) ∧
    (Analysis.new (Object.Elf elf)).memranges
      = elf.program_headers.flatMap phdrMemContrib
        ++ elf.section_headers.flatMap (shdrMemContrib elf.shdr_strtab) := by
  refine ⟨?_, ?_, by rw [analysis_new_elf], by rw [analysis_new_elf]⟩
  · simp [shdrFrangeContrib, h]
  · simp [shdrMemContrib, h]

/-- Witness for C3 at the zero-size example section inside elfEx. -/
theorem zero_size_section_no_records_witness :
    shdrZeroEx.sh_size = 0 ∧
    shdrFrangeContrib elfEx.shdr_strtab shdrZeroEx = [] ∧
    shdrMemContrib elfEx.shdr_strtab shdrZeroEx = [] :=
  ⟨rfl, (zero_size_section_no_records elfEx shdrZeroEx rfl).1,
    (zero_size_section_no_records elfEx shdrZeroEx rfl).2.1⟩

/-- C1: the program-header classifier yields memory = some segment iff the
type code is PT_LOAD, in which case the tag is Code and the permissions come
from the read/write/execute flag bits; PT_PHDR and PT_DYNAMIC map to Meta,
PT_INTERP and PT_NOTE map to ASCII, and every other type code maps to
Unknown, all with memory = none. -/
theorem phdr_classification (phdr : ProgramHeader) :
    ((MetaData.ofProgramHeader phdr).memory.isSome = true ↔ phdr.p_type = PT_LOAD) ∧
    (phdr.p_type = PT_LOAD →
      (MetaData.ofProgramHeader phdr).tag = Tag.Code ∧
      (MetaData.ofProgramHeader phdr).memory
        = some (Segment.new
            (Permissions.new phdr.is_read phdr.is_write phdr.is_executable))) ∧
    ((phdr.p_type = PT_PHDR ∨ phdr.p_type = PT_DYNAMIC) →
      (MetaData.ofProgramHeader phdr).tag = Tag.Meta ∧
      (MetaData.ofProgramHeader phdr).memory = none) ∧
    ((phdr.p_type = PT_INTERP ∨ phdr.p_type = PT_NOTE) →
      (MetaData.ofProgramHeader phdr).tag = Tag.ASCII ∧
      (MetaData.ofProgramHeader phdr).memory = none) ∧
    (phdr.p_type ≠ PT_LOAD → phdr.p_type ≠ PT_PHDR → phdr.p_type ≠ PT_DYNAMIC →
      phdr.p_type ≠ PT_INTERP → phdr.p_type ≠ PT_NOTE →
      (MetaData.ofProgramHeader phdr).tag = Tag.Unknown ∧
      (MetaData.ofProgramHeader phdr).memory = none) := by
  by_cases h1 : phdr.p_type = PT_PHDR <;>
    by_cases h2 : phdr.p_type = PT_INTERP <;>
      by_cases h3 : phdr.p_type = PT_NOTE <;>
        by_cases h4 : phdr.p_type = PT_DYNAMIC <;>
          by_cases h5 : phdr.p_type = PT_LOAD <;>
            simp_all [MetaData.ofProgramHeader, PT_PHDR, PT_INTERP, PT_NOTE,
              PT_DYNAMIC, PT_LOAD]

/-- Witness for C1 at a PT_LOAD header with flags R+X and a PT_PHDR header. -/
theorem phdr_classification_witness :
    (MetaData.ofProgramHeader phdrLoadRX).tag = Tag.Code ∧
    (MetaData.ofProgramHeader phdrLoadRX).memory
      = some (Segment.new (Permissions.new true false true)) ∧
    (MetaData.ofProgramHeader phdrPhdrEx).tag = Tag.Meta ∧
    (MetaData.ofProgramHeader phdrPhdrEx).memory = none := by
  have h1 := (phdr_classification phdrLoadRX).2.1 rfl
  have h2 := (phdr_classification phdrPhdrEx).2.2.1 (Or.inl rfl)
  refine ⟨h1.1, ?_, h2.1, h2.2⟩
  rw [h1.2]
  rfl

/-- C2: the section-header classifier leaves name unset and maps the type
code as follows: note to ASCII, relocation (rel or rela) to Relocation,
dynamic to Meta, symbol tables (symtab or dynsym) to SymbolTable, string
table to StringTable, no-bits to Zero with a segment whose permissions come
from the (allocated, writable, executable) flags, program-bits /
init-array / fini-array to Code with the same permission derivation, and any
other type code to Unknown with memory = none; it never fails. -/
theorem shdr_classification (shdr : SectionHeader) :
    (MetaData.ofSectionHeader shdr).name = none ∧
    (shdr.sh_type = SHT_NOTE →
      (MetaData.ofSectionHeader shdr).tag = Tag.ASCII ∧
      (MetaData.ofSectionHeader shdr).memory = none) ∧
    ((shdr.sh_type = SHT_REL ∨ shdr.sh_type = SHT_RELA) →
      (MetaData.ofSectionHeader shdr).tag = Tag.Relocation ∧
      (MetaData.ofSectionHeader shdr).memory = none) ∧
    (shdr.sh_type = SHT_DYNAMIC →
      (MetaData.ofSectionHeader shdr).tag = Tag.Meta ∧
      (MetaData.ofSectionHeader shdr).memory = none) ∧
    ((shdr.sh_type = SHT_SYMTAB ∨ shdr.sh_type = SHT_DYNSYM) →
      (MetaData.ofSectionHeader shdr).tag = Tag.SymbolTable ∧
      (MetaData.ofSectionHeader shdr).memory = none) ∧
    (shdr.sh_type = SHT_STRTAB →
      (MetaData.ofSectionHeader shdr).tag = Tag.StringTable ∧
      (MetaData.ofSectionHeader shdr).memory = none) ∧
    (shdr.sh_type = SHT_NOBITS →
      (MetaData.ofSectionHeader shdr).tag = Tag.Zero ∧
      (MetaData.ofSectionHeader shdr).memory
        = some (Segment.new
            (Permissions.new shdr.is_alloc shdr.is_writable shdr.is_executable))) ∧
    ((shdr.sh_type = SHT_PROGBITS ∨ shdr.sh_type = SHT_INIT_ARRAY ∨
        shdr.sh_type = SHT_FINI_ARRAY) →
      (MetaData.ofSectionHeader shdr).tag = Tag.Code ∧
      (MetaData.ofSectionHeader shdr).memory
        = some (Segment.new
            (Permissions.new shdr.is_alloc shdr.is_writable shdr.is_executable))) ∧
    (shdr.sh_type ≠ SHT_NOTE → shdr.sh_type ≠ SHT_REL → shdr.sh_type ≠ SHT_RELA →
      shdr.sh_type ≠ SHT_DYNAMIC → shdr.sh_type ≠ SHT_SYMTAB →
      shdr.sh_type ≠ SHT_DYNSYM → shdr.sh_type ≠ SHT_STRTAB →
      shdr.sh_type ≠ SHT_NOBITS → shdr.sh_type ≠ SHT_PROGBITS →
      shdr.sh_type ≠ SHT_INIT_ARRAY → shdr.sh_type ≠ SHT_FINI_ARRAY →
      (MetaData.ofSectionHeader shdr).tag = Tag.Unknown ∧
      (MetaData.ofSectionHeader shdr).memory = none) := by
  refine ⟨?_, ?_, ?_, ?_, ?_, ?_, ?_, ?_, ?_⟩
  · unfold MetaData.ofSectionHeader
    split_ifs <;> rfl
  · intro h
    simp [MetaData.ofSectionHeader, h, SHT_NOTE, SHT_REL, SHT_RELA, SHT_DYNAMIC,
      SHT_SYMTAB, SHT_DYNSYM, SHT_STRTAB, SHT_NOBITS, SHT_PROGBITS,
      SHT_INIT_ARRAY, SHT_FINI_ARRAY]
  · rintro (h | h) <;>
      simp [MetaData.ofSectionHeader, h, SHT_NOTE, SHT_REL, SHT_RELA, SHT_DYNAMIC,
        SHT_SYMTAB, SHT_DYNSYM, SHT_STRTAB, SHT_NOBITS, SHT_PROGBITS,
        SHT_INIT_ARRAY, SHT_FINI_ARRAY]
  · intro h
    simp [MetaData.ofSectionHeader, h, SHT_NOTE, SHT_REL, SHT_RELA, SHT_DYNAMIC,
      SHT_SYMTAB, SHT_DYNSYM, SHT_STRTAB, SHT_NOBITS, SHT_PROGBITS,
      SHT_INIT_ARRAY, SHT_FINI_ARRAY]
  · rintro (h | h) <;>
      simp [MetaData.ofSectionHeader, h, SHT_NOTE, SHT_REL, SHT_RELA, SHT_DYNAMIC,
        SHT_SYMTAB, SHT_DYNSYM, SHT_STRTAB, SHT_NOBITS, SHT_PROGBITS,
        SHT_INIT_ARRAY, SHT_FINI_ARRAY]
  · intro h
    simp [MetaData.ofSectionHeader, h, SHT_NOTE, SHT_REL, SHT_RELA, SHT_DYNAMIC,
      SHT_SYMTAB, SHT_DYNSYM, SHT_STRTAB, SHT_NOBITS, SHT_PROGBITS,
      SHT_INIT_ARRAY, SHT_FINI_ARRAY]
  · intro h
    simp [MetaData.ofSectionHeader, h, SHT_NOTE, SHT_REL, SHT_RELA, SHT_DYNAMIC,
      SHT_SYMTAB, SHT_DYNSYM, SHT_STRTAB, SHT_NOBITS, SHT_PROGBITS,
      SHT_INIT_ARRAY, SHT_FINI_ARRAY]
  · rintro (h | h | h) <;>
      simp [MetaData.ofSectionHeader, h, SHT_NOTE, SHT_REL, SHT_RELA, SHT_DYNAMIC,
        SHT_SYMTAB, SHT_DYNSYM, SHT_STRTAB, SHT_NOBITS, SHT_PROGBITS,
        SHT_INIT_ARRAY, SHT_FINI_ARRAY]
  · intro h1 h2 h3 h4 h5 h6 h7 h8 h9 h10 h11
    simp [MetaData.ofSectionHeader, h1, h2, h3, h4, h5, h6, h7, h8, h9, h10, h11]

/-- Witness for C2 at a no-bits section (alloc+write) and a program-bits
section (alloc+exec). -/
theorem shdr_classification_witness :
    (MetaData.ofSectionHeader shdrNobitsEx).tag = Tag.Zero ∧
    (MetaData.ofSectionHeader shdrNobitsEx).memory
      = some (Segment.new (Permissions.new true true false)) ∧
    (MetaData.ofSectionHeader shdrProgbitsEx).tag = Tag.Code ∧
    (MetaData.ofSectionHeader shdrProgbitsEx).name = none := by
  have h1 := (shdr_classification shdrNobitsEx).2.2.2.2.2.2.1 rfl
  have h2 := (shdr_classification shdrProgbitsEx).2.2.2.2.2.2.2.1 (Or.inl rfl)
  have h3 := (shdr_classification shdrProgbitsEx).1
  refine ⟨h1.1, ?_, h2.1, h3⟩
  rw [h1.2]
  rfl

/-- C4: a nonzero-size section entry whose stored metadata has tag Zero
contributes no record to franges and exactly one record to memranges, and
Analysis.new on an Elf is exactly the concatenation of the per-entry
contributions. -/
theorem zero_tag_section_memranges_only (elf : Elf) (shdr : SectionHeader)
    (hsz : shdr.sh_size ≠ 0)
    (htag : (shdrMeta elf.shdr_strtab shdr).tag = Tag.Zero) :
    shdrFrangeContrib elf.shdr_strtab shdr = [] ∧
    (shdrMemContrib elf.shdr_strtab shdr).length = 1 ∧
    (Analysis.new (Object.Elf elf)).franges
      = elf.program_headers.flatMap phdrFrangeContrib
        ++ elf.section_headers.flatMap (shdrFrangeContrib elf.shdr_strtab) ∧
    (Analysis.new (Object.Elf elf)).memranges
      = elf.program_headers.flatMap phdrMemContrib
        ++ elf.section_headers.flatMap (shdrMemContrib elf.shdr_strtab) := by
  have hty : shdr.sh_type = SHT_NOBITS := by
    by_contra hne
    unfold shdrMeta MetaData.ofSectionHeader at htag
    split_ifs at htag
  refine ⟨?_, ?_, by rw [analysis_new_elf], by rw [analysis_new_elf]⟩
  · simp [shdrFrangeContrib, hsz, SectionHeader.file_range, hty]
  · simp [shdrMemContrib, hsz]

/-- Witness for C4 at the no-bits example section inside elfEx. -/
theorem zero_tag_section_memranges_only_witness :
    shdrNobitsEx.sh_size ≠ 0 ∧
    (shdrMeta elfEx.shdr_strtab shdrNobitsEx).tag = Tag.Zero ∧
    shdrFrangeContrib elfEx.shdr_strtab shdrNobitsEx = [] ∧
    (shdrMemContrib elfEx.shdr_strtab shdrNobitsEx).length = 1 := by
  have h := zero_tag_section_memranges_only elfEx shdrNobitsEx (by decide) (by decide)
  exact ⟨by decide, by decide, h.1, h.2.1⟩

/-- Counterexample to C7 as stated: elfZeroSec contains exactly one
structural entry, a section of declared size zero, yet Analysis.new inserts
no record at all into memranges, so that entry does not contribute exactly
one MetaData record to memranges. -/
theorem zero_size_entry_contributes_nothing :
    elfZeroSec.program_headers.length = 0 ∧
    elfZeroSec.section_headers.length = 1 ∧
    (Analysis.new (Object.Elf elfZeroSec)).memranges.length = 0 :=
  ⟨rfl, rfl, rfl⟩

/-- C7 (amended): every load-segment entry contributes exactly one record to
franges and one to memranges; every section entry of nonzero declared size
contributes exactly one record to memranges and at most one to franges; a
section entry of declared size zero contributes no record to either. -/
theorem entry_contribution_counts (strtab : Strtab) (phdr : ProgramHeader)
    (shdr : SectionHeader) :
    (phdrFrangeContrib phdr).length = 1 ∧
    (phdrMemContrib phdr).length = 1 ∧
    (shdr.sh_size ≠ 0 → (shdrMemContrib strtab shdr).length = 1) ∧
    (shdrFrangeContrib strtab shdr).length ≤ 1 ∧
    (shdr.sh_size = 0 →
      shdrFrangeContrib strtab shdr = [] ∧ shdrMemContrib strtab shdr = []) := by
  refine ⟨rfl, rfl, ?_, ?_, ?_⟩
  · intro h
    simp [shdrMemContrib, h]
  · unfold shdrFrangeContrib
    split_ifs
    · simp
    · cases hf : shdr.file_range <;> simp
  · intro h
    exact ⟨by simp [shdrFrangeContrib, h], by simp [shdrMemContrib, h]⟩

/-- Witness for C7 (amended) at a nonzero-size section and a zero-size one. -/
theorem entry_contribution_counts_witness :
    ((shdrMemContrib strtabEx shdrProgbitsEx).length = 1) ∧
    (shdrFrangeContrib strtabEx shdrZeroEx = [] ∧
      shdrMemContrib strtabEx shdrZeroEx = []) :=
  ⟨(entry_contribution_counts strtabEx phdrLoadRX shdrProgbitsEx).2.2.1 (by decide),
   (entry_contribution_counts strtabEx phdrLoadRX shdrZeroEx).2.2.2.2 rfl⟩

/-- Any metadata the program-header classifier emits either has no memory
descriptor, or has tag Code and a segment built by Segment.new from the
header's flag bits. -/
theorem metaShape_phdr (phdr : ProgramHeader) :
    (MetaData.ofProgramHeader phdr).memory = none ∨
    ((MetaData.ofProgramHeader phdr).memory
        = some (Segment.new
            (Permissions.new phdr.is_read phdr.is_write phdr.is_executable)) ∧
      (MetaData.ofProgramHeader phdr).tag = Tag.Code) := by
  unfold MetaData.ofProgramHeader
  split_ifs <;> simp

/-- Any metadata stored for a section either has no memory descriptor, or
has tag Code or Zero and a segment built by Segment.new from the section's
flag bits. -/
theorem metaShape_shdr (strtab : Strtab) (shdr : SectionHeader) :
    (shdrMeta strtab shdr).memory = none ∨
    ((shdrMeta strtab shdr).memory
        = some (Segment.new
            (Permissions.new shdr.is_alloc shdr.is_writable shdr.is_executable)) ∧
      ((shdrMeta strtab shdr).tag = Tag.Code ∨
        (shdrMeta strtab shdr).tag = Tag.Zero)) := by
  unfold shdrMeta MetaData.ofSectionHeader
  split_ifs <;> simp

/-- A record in a program header's franges contribution carries the
classifier's metadata. -/
theorem mem_phdrFrangeContrib (phdr : ProgramHeader) (rec : MRange × MetaData)
    (h : rec ∈ phdrFrangeContrib phdr) : rec.2 = MetaData.ofProgramHeader phdr := by
  simp [phdrFrangeContrib] at h
  rw [h]

/-- A record in a program header's memranges contribution carries the
classifier's metadata. -/
theorem mem_phdrMemContrib (phdr : ProgramHeader) (rec : MRange × MetaData)
    (h : rec ∈ phdrMemContrib phdr) : rec.2 = MetaData.ofProgramHeader phdr := by
  simp [phdrMemContrib] at h
  rw [h]

/-- A record in a section's franges contribution carries the stored section
metadata. -/
theorem mem_shdrFrangeContrib (strtab : Strtab) (shdr : SectionHeader)
    (rec : MRange × MetaData) (h : rec ∈ shdrFrangeContrib strtab shdr) :
    rec.2 = shdrMeta strtab shdr := by
  unfold shdrFrangeContrib at h
  split_ifs at h
  · simp at h
  · cases hf : shdr.file_range with
    | none =>
      rw [hf] at h
      simp at h
    | some r =>
      rw [hf] at h
      simp at h
      rw [h]

/-- A record in a section's memranges contribution carries the stored
section metadata. -/
theorem mem_shdrMemContrib (strtab : Strtab) (shdr : SectionHeader)
    (rec : MRange × MetaData) (h : rec ∈ shdrMemContrib strtab shdr) :
    rec.2 = shdrMeta strtab shdr := by
  unfold shdrMemContrib at h
  split_ifs at h
  · simp at h
  · simp at h
    rw [h]

/-- Every record of any analysis carries either a program-header classifier
output or a stored section metadata. -/
theorem mem_analysis_meta (obj : Object) (rec : MRange × MetaData)
    (h : rec ∈ (Analysis.new obj).franges ∨ rec ∈ (Analysis.new obj).memranges) :
    (∃ phdr : ProgramHeader, rec.2 = MetaData.ofProgramHeader phdr) ∨
    (∃ shdr : SectionHeader, ∃ strtab : Strtab, rec.2 = shdrMeta strtab shdr) := by
  cases obj with
  | Elf elf =>
    simp only [analysis_new_elf, List.mem_append, List.mem_flatMap] at h
    rcases h with (⟨p, _, hp⟩ | ⟨s, _, hs⟩) | (⟨p, _, hp⟩ | ⟨s, _, hs⟩)
    · exact Or.inl ⟨p, mem_phdrFrangeContrib p rec hp⟩
    · exact Or.inr ⟨s, elf.shdr_strtab, mem_shdrFrangeContrib elf.shdr_strtab s rec hs⟩
    · exact Or.inl ⟨p, mem_phdrMemContrib p rec hp⟩
    · exact Or.inr ⟨s, elf.shdr_strtab, mem_shdrMemContrib elf.shdr_strtab s rec hs⟩
  | PE => simp [Analysis.new] at h
  | Mach => simp [Analysis.new] at h
  | Archive => simp [Analysis.new] at h
  | Unknown m => simp [Analysis.new] at h

/-- C10: for every record of any analysis, memory is some only if the tag is
Code or Zero; records tagged Meta, ASCII, Relocation, SymbolTable,
StringTable or Unknown always carry memory = none; and every stored Segment
has alignment = none. -/
theorem memory_tag_invariant (obj : Object) (rec : MRange × MetaData)
    (h : rec ∈ (Analysis.new obj).franges ∨ rec ∈ (Analysis.new obj).memranges) :
    (rec.2.memory.isSome = true → rec.2.tag = Tag.Code ∨ rec.2.tag = Tag.Zero) ∧
    ((rec.2.tag = Tag.Meta ∨ rec.2.tag = Tag.ASCII ∨ rec.2.tag = Tag.Relocation ∨
        rec.2.tag = Tag.SymbolTable ∨ rec.2.tag = Tag.StringTable ∨
        rec.2.tag = Tag.Unknown) → rec.2.memory = none) ∧
    (∀ seg : Segment, rec.2.memory = some seg → seg.alignment = none) := by
  rcases mem_analysis_meta obj rec h with ⟨phdr, hp⟩ | ⟨shdr, strtab, hs⟩
  · rw [hp]
    rcases metaShape_phdr phdr with hm | ⟨hm, ht⟩
    · refine ⟨fun hcontra => ?_, fun _ => hm, fun seg hseg => ?_⟩
      · rw [hm] at hcontra
        simp at hcontra
      · rw [hm] at hseg
        simp at hseg
    · refine ⟨fun _ => Or.inl ht, fun hb => ?_, fun seg hseg => ?_⟩
      · rcases hb with hb | hb | hb | hb | hb | hb <;> rw [ht] at hb <;> simp at hb
      · rw [hm] at hseg
        injection hseg with h2
        subst h2
        rfl
  · rw [hs]
    rcases metaShape_shdr strtab shdr with hm | ⟨hm, ht⟩
    · refine ⟨fun hcontra => ?_, fun _ => hm, fun seg hseg => ?_⟩
      · rw [hm] at hcontra
        simp at hcontra
      · rw [hm] at hseg
        simp at hseg
    · refine ⟨fun _ => ht, fun hb => ?_, fun seg hseg => ?_⟩
      · rcases ht with ht | ht <;>
          rcases hb with hb | hb | hb | hb | hb | hb <;>
            rw [ht] at hb <;> simp at hb
      · rw [hm] at hseg
        injection hseg with h2
        subst h2
        rfl

/-- Witness for C10 at the load-segment record of the example analysis. -/
theorem memory_tag_invariant_witness :
    recEx ∈ (Analysis.new objEx).franges ∧
    (recEx.2.tag = Tag.Code ∨ recEx.2.tag = Tag.Zero) := by
  have hm : recEx ∈ (Analysis.new objEx).franges := by decide
  exact ⟨hm, (memory_tag_invariant objEx recEx (Or.inl hm)).1 (by decide)⟩
